import Mathlib

/-!
Verification of the `steppy.adapter` recipe-resolution core.

The source (src/steppy/adapter.py) defines a named-tuple extractor
`E(input_name, key)`, an exception class `AdapterError`, and an `Adapter`
holding `adapting_recipes : Dict[str, AdaptingRecipe]` with one operation
`adapt(all_inputs)`.  The private resolver `_construct` dispatches on the
exact runtime class of the recipe node (`recipe.__class__` looked up in a
dict keyed by `E`, `tuple`, `list`, `dict`, with `_construct_constant` as
the fallback).

The embedding below mirrors that structure: `PyObj` is the universe of
runtime values that matter to the resolver.  Container constructors carry a
flag `exactCls` recording whether the object's runtime class is exactly
`list` / `tuple` / `dict` (`true`) or a proper subclass (`false`) — the
dispatch in `_construct` distinguishes precisely these.  A value of class
exactly `E` is the constructor `PyObj.e`; any other named-tuple class is a
proper subclass of `tuple`, i.e. `PyObj.pyTuple false`.
-/

namespace Steppy

inductive PyObj where
  | e (input_name : String) (key : String)
  | pyList (exactCls : Bool) (xs : List PyObj)
  | pyTuple (exactCls : Bool) (xs : List PyObj)
  | pyDict (exactCls : Bool) (entries : List (PyObj × PyObj))
  | pyStr (s : String)
  | pyInt (n : Int)
  | pyNone
deriving Repr

mutual

/-- Structural equality on runtime values (Python `==` on the shapes we
model). -/
def pyEq : PyObj → PyObj → Bool
  | PyObj.e n k, PyObj.e n2 k2 => n == n2 && k == k2
  | PyObj.pyList c xs, PyObj.pyList c2 ys => c == c2 && pyEqList xs ys
  | PyObj.pyTuple c xs, PyObj.pyTuple c2 ys => c == c2 && pyEqList xs ys
  | PyObj.pyDict c es, PyObj.pyDict c2 fs => c == c2 && pyEqPairs es fs
  | PyObj.pyStr s, PyObj.pyStr t => s == t
  | PyObj.pyInt m, PyObj.pyInt m2 => m == m2
  | PyObj.pyNone, PyObj.pyNone => true
  | _, _ => false

def pyEqList : List PyObj → List PyObj → Bool
  | [], [] => true
  | x :: xs, y :: ys => pyEq x y && pyEqList xs ys
  | _, _ => false

def pyEqPairs : List (PyObj × PyObj) → List (PyObj × PyObj) → Bool
  | [], [] => true
  | p :: es, q :: fs => pyEq p.1 q.1 && pyEq p.2 q.2 && pyEqPairs es fs
  | _, _ => false

end

mutual

theorem pyEq_iff : ∀ (a b : PyObj), pyEq a b = true ↔ a = b
  | PyObj.e n k, b => by cases b <;> simp [pyEq]
  | PyObj.pyList c xs, b => by
      cases b <;> simp [pyEq] <;> intro _
      simpa using pyEqList_iff xs _
  | PyObj.pyTuple c xs, b => by
      cases b <;> simp [pyEq] <;> intro _
      simpa using pyEqList_iff xs _
  | PyObj.pyDict c es, b => by
      cases b <;> simp [pyEq] <;> intro _
      simpa using pyEqPairs_iff es _
  | PyObj.pyStr s, b => by cases b <;> simp [pyEq]
  | PyObj.pyInt m, b => by cases b <;> simp [pyEq]
  | PyObj.pyNone, b => by cases b <;> simp [pyEq]

theorem pyEqList_iff : ∀ (xs ys : List PyObj), pyEqList xs ys = true ↔ xs = ys
  | [], ys => by cases ys <;> simp [pyEqList]
  | x :: xs, ys => by
      cases ys with
      | nil => simp [pyEqList]
      | cons y ys => simp [pyEqList, pyEq_iff x y, pyEqList_iff xs ys]

theorem pyEqPairs_iff : ∀ (es fs : List (PyObj × PyObj)),
    pyEqPairs es fs = true ↔ es = fs
  | [], fs => by cases fs <;> simp [pyEqPairs]
  | p :: es, fs => by
      cases fs with
      | nil => simp [pyEqPairs]
      | cons q fs =>
          simp [pyEqPairs, pyEq_iff p.1 q.1, pyEq_iff p.2 q.2,
            pyEqPairs_iff es fs, Prod.ext_iff]

end

instance : DecidableEq PyObj :=
  fun a b => decidable_of_iff (pyEq a b = true) (pyEq_iff a b)

/-- Results of one step: a Python `Dict[str, Any]`, modelled as an
insertion-ordered association list with (as in any Python dict) unique
keys. -/
abbrev Results := List (String × PyObj)

/-- AllInputs: a Python `Dict[str, Any]` from step name to that step's
result mapping. -/
abbrev AllInputs := List (String × Results)

/-- Errors that flow through the resolver.  In the Python source a failed
dict subscript raises `KeyError`, and `_construct_element` converts those
to `AdapterError` with a human-readable message; we keep both kinds so the
try/except control flow can be embedded faithfully. -/
inductive PyErr where
  | keyError (key : String)
  | adapterError (msg : String)
deriving Repr, DecidableEq

/-- Lookup in a string-keyed association list (Python dict read). -/
def assocFindStr {α : Type} : List (String × α) → String → Option α
  | [], _ => none
  | (k2, v) :: rest, k => if k2 = k then some v else assocFindStr rest k

/-- Python dict subscript `d[k]`: the value when present, `KeyError`
otherwise. -/
def dictGet {α : Type} (d : List (String × α)) (k : String) : Except PyErr α :=
  match assocFindStr d k with
  | some v => Except.ok v
  | none => Except.error (PyErr.keyError k)

/-- Embedding of `try: body except KeyError: handler`: a `KeyError`
escaping `body` runs `handler`; any other outcome (success, or an
`AdapterError`) passes through unchanged. -/
def tryKeyError {α : Type} (body : Except PyErr α) (handler : Except PyErr α) :
    Except PyErr α :=
  match body with
  | Except.error (PyErr.keyError _) => handler
  | r => r

/-- Message raised when step `input_name` is present but `key` is absent
from its results: `"Input '{}' didn't have '{}' in its result."`. -/
def missingKeyMsg (input_name key : String) : String :=
  "Input \x27" ++ input_name ++ "\x27 didn\x27t have \x27" ++ key ++
    "\x27 in its result."

/-- Message raised when step `input_name` is absent from `all_inputs`:
`"No such input: '{}'"`. -/
def noSuchInputMsg (input_name : String) : String :=
  "No such input: \x27" ++ input_name ++ "\x27"

/-- Embedding of `Adapter._construct_element`, with the source's nested
try/except structure kept intact: the outer `except KeyError` guards both
lookups, the inner one only the key lookup, and the `AdapterError` raised
by the inner handler is not a `KeyError`, so it passes the outer handler
untouched. -/
def constructElement (all_inputs : AllInputs) (input_name key : String) :
    Except PyErr PyObj :=
  tryKeyError
    (match dictGet all_inputs input_name with
     | Except.error err => Except.error err
     | Except.ok input_results =>
         tryKeyError (dictGet input_results key)
           (Except.error (PyErr.adapterError (missingKeyMsg input_name key))))
    (Except.error (PyErr.adapterError (noSuchInputMsg input_name)))

/-- Embedding of `Adapter._construct_constant`: the value untouched. -/
def constructConstant (constant : PyObj) : Except PyErr PyObj :=
  Except.ok constant

/-- Python dict insertion `d[k] = v` on an insertion-ordered dict: an
existing key keeps its position and gets the new value, a new key is
appended. -/
def dictInsert (d : List (PyObj × PyObj)) (k v : PyObj) :
    List (PyObj × PyObj) :=
  if d.any (fun p => pyEq p.1 k) then
    d.map (fun p => if pyEq p.1 k then (k, v) else p)
  else
    d ++ [(k, v)]

mutual

/-- Embedding of `Adapter._construct`: dispatch on the exact runtime class
of the recipe node.  Class exactly `E` → element extraction; class exactly
`tuple` / `list` / `dict` → the corresponding recursive constructor; any
other class (constants, and proper subclasses of the container classes,
for which `recipe.__class__` is not a key of the dispatch dict) →
`_construct_constant`. -/
def construct (all_inputs : AllInputs) : PyObj → Except PyErr PyObj
  | PyObj.e n k => constructElement all_inputs n k
  | PyObj.pyList true xs =>
      match constructList all_inputs xs with
      | Except.ok ys => Except.ok (PyObj.pyList true ys)
      | Except.error err => Except.error err
  | PyObj.pyTuple true xs =>
      match constructList all_inputs xs with
      | Except.ok ys => Except.ok (PyObj.pyTuple true ys)
      | Except.error err => Except.error err
  | PyObj.pyDict true es =>
      match constructDict all_inputs [] es with
      | Except.ok d => Except.ok (PyObj.pyDict true d)
      | Except.error err => Except.error err
  | other => constructConstant other

/-- Embedding of `Adapter._construct_list` (and the element traversal of
`_construct_tuple`, which is identical apart from the output container):
resolve the elements left to right, failing at the first error. -/
def constructList (all_inputs : AllInputs) : List PyObj → Except PyErr (List PyObj)
  | [] => Except.ok []
  | x :: xs =>
      match construct all_inputs x with
      | Except.error err => Except.error err
      | Except.ok y =>
          match constructList all_inputs xs with
          | Except.error err => Except.error err
          | Except.ok ys => Except.ok (y :: ys)

/-- Embedding of `Adapter._construct_dict`: the dict comprehension
`{construct(k): construct(v) for k, v in dic.items()}` — each entry's key
is resolved, then its value, and the pair is inserted into the (initially
empty) result dict in iteration order, so a repeated resolved key is
overwritten by the later entry. -/
def constructDict (all_inputs : AllInputs) (acc : List (PyObj × PyObj)) :
    List (PyObj × PyObj) → Except PyErr (List (PyObj × PyObj))
  | [] => Except.ok acc
  | (k, v) :: es =>
      match construct all_inputs k with
      | Except.error err => Except.error err
      | Except.ok k2 =>
          match construct all_inputs v with
          | Except.error err => Except.error err
          | Except.ok v2 => constructDict all_inputs (dictInsert acc k2 v2) es

end

/-- Python dict insertion for the string-keyed `adapted` dict built by
`adapt`. -/
def insertStr (d : List (String × PyObj)) (k : String) (v : PyObj) :
    List (String × PyObj) :=
  if d.any (fun p => p.1 == k) then
    d.map (fun p => if p.1 == k then (k, v) else p)
  else
    d ++ [(k, v)]

/-- Loop body of `Adapter.adapt`: `adapted = {}` then
`adapted[name] = self._construct(all_inputs, recipe)` for each configured
pair in iteration order; the first resolution error aborts the loop and
propagates. -/
def adaptGo (all_inputs : AllInputs) (adapted : List (String × PyObj)) :
    List (String × PyObj) → Except PyErr (List (String × PyObj))
  | [] => Except.ok adapted
  | (name, recipe) :: rest =>
      match construct all_inputs recipe with
      | Except.error err => Except.error err
      | Except.ok v => adaptGo all_inputs (insertStr adapted name v) rest

/-- Embedding of `Adapter.adapt`: `adapting_recipes` is the stored
configuration (a Python dict, hence unique keys in insertion order). -/
def adapt (adapting_recipes : List (String × PyObj)) (all_inputs : AllInputs) :
    Except PyErr (List (String × PyObj)) :=
  adaptGo all_inputs [] adapting_recipes

/-- Recipe nodes the dispatch of `_construct` sends to a structural case:
runtime class exactly `E`, exactly `list`, exactly `tuple`, or exactly
`dict`.  Everything else falls through to `_construct_constant`. -/
def isStructured : PyObj → Bool
  | PyObj.e _ _ => true
  | PyObj.pyList c _ => c
  | PyObj.pyTuple c _ => c
  | PyObj.pyDict c _ => c
  | _ => false

/-- Python dict lookup on a resolved (PyObj-keyed) dict: first entry whose
key equals the probe. -/
def assocFindPy : List (PyObj × PyObj) → PyObj → Option PyObj
  | [], _ => none
  | p :: rest, k => if pyEq p.1 k then some p.2 else assocFindPy rest k

/-- Value of the last entry of the pair list whose key equals `k` (the
later-iterated entry wins). -/
def lastAssoc : List (PyObj × PyObj) → PyObj → Option PyObj
  | [], _ => none
  | q :: rest, k =>
      match lastAssoc rest k with
      | some v => some v
      | none => if pyEq q.1 k then some q.2 else none

/-- Dict built by inserting the pairs in order into an empty dict, exactly
as the dict comprehension of `_construct_dict` does. -/
def dictOfPairs (rs : List (PyObj × PyObj)) : List (PyObj × PyObj) :=
  rs.foldl (fun d q => dictInsert d q.1 q.2) []

/-- C2: an extractor whose step and key are both present returns the found
value itself, with no further resolution: `v` is universally quantified,
so the equation holds in particular when `v` has the structural shape of a
recipe (an extractor, list, tuple or mapping). -/
theorem extractor_returns_value_unchanged (ai : AllInputs) (n k : String)
    (res : Results) (v : PyObj)
    (hn : assocFindStr ai n = some res) (hk : assocFindStr res k = some v) :
    construct ai (PyObj.e n k) = Except.ok v := by
  simp [construct, constructElement, dictGet, hn, hk, tryKeyError]

/-- Witness for C2 with a value that itself has the shape of a recipe: the
stored value `E("a", "b")` comes back unresolved. -/
theorem extractor_returns_value_unchanged_witness :
    construct [("s", [("k", PyObj.e "a" "b")])] (PyObj.e "s" "k")
      = Except.ok (PyObj.e "a" "b") :=
  extractor_returns_value_unchanged _ "s" "k" [("k", PyObj.e "a" "b")] _
    (by simp [assocFindStr]) (by simp [assocFindStr])

/-- C3: step present, key absent: the resolver fails with the
`AdapterError` carrying the missing-key message, which contains both the
step name and the key, and which is not the unknown-input message — the
`AdapterError` raised in the inner `except KeyError:` handler is not a
`KeyError`, so the outer handler does not replace it. -/
theorem extractor_missing_key_error (ai : AllInputs) (n k : String)
    (res : Results)
    (hn : assocFindStr ai n = some res) (hk : assocFindStr res k = none) :
    construct ai (PyObj.e n k)
      = Except.error (PyErr.adapterError (missingKeyMsg n k)) ∧
    List.IsInfix n.data (missingKeyMsg n k).data ∧
    List.IsInfix k.data (missingKeyMsg n k).data ∧
    missingKeyMsg n k ≠ noSuchInputMsg n := by
  refine ⟨?_, ?_, ?_, ?_⟩
  · simp [construct, constructElement, dictGet, hn, hk, tryKeyError]
  · exact ⟨("Input \x27").data,
      (("\x27 didn\x27t have \x27" ++ k ++ "\x27 in its result.")).data,
      by simp [missingKeyMsg, String.data_append]⟩
  · exact ⟨(("Input \x27" ++ n ++ "\x27 didn\x27t have \x27")).data,
      ("\x27 in its result.").data,
      by simp [missingKeyMsg, String.data_append]⟩
  · intro h
    have h2 := congrArg (fun s => s.data.head?) h
    simp [missingKeyMsg, noSuchInputMsg, String.data_append,
      List.head?_append] at h2

/-- Witness for C3 at a concrete input. -/
theorem extractor_missing_key_error_witness :
    construct [("s", [("other", PyObj.pyInt 1)])] (PyObj.e "s" "k")
      = Except.error (PyErr.adapterError (missingKeyMsg "s" "k")) ∧
    List.IsInfix ("s").data (missingKeyMsg "s" "k").data ∧
    List.IsInfix ("k").data (missingKeyMsg "s" "k").data ∧
    missingKeyMsg "s" "k" ≠ noSuchInputMsg "s" :=
  extractor_missing_key_error _ "s" "k" [("other", PyObj.pyInt 1)]
    (by simp [assocFindStr]) (by simp [assocFindStr])

/-- C4: step absent from `all_inputs`: the lookup raises `KeyError`, the
outer handler converts it to the `AdapterError` carrying the
unknown-input message, which contains the step name. -/
theorem extractor_unknown_input_error (ai : AllInputs) (n k : String)
    (hn : assocFindStr ai n = none) :
    construct ai (PyObj.e n k)
      = Except.error (PyErr.adapterError (noSuchInputMsg n)) ∧
    List.IsInfix n.data (noSuchInputMsg n).data := by
  refine ⟨?_, ?_⟩
  · simp [construct, constructElement, dictGet, hn, tryKeyError]
  · exact ⟨("No such input: \x27").data, ("\x27").data,
      by simp [noSuchInputMsg, String.data_append]⟩

/-- Witness for C4 at a concrete input (spec scenario 4). -/
theorem extractor_unknown_input_error_witness :
    construct [] (PyObj.e "missing" "k")
      = Except.error (PyErr.adapterError (noSuchInputMsg "missing")) ∧
    List.IsInfix ("missing").data (noSuchInputMsg "missing").data :=
  extractor_unknown_input_error [] "missing" "k" (by simp [assocFindStr])

/-- C8: any value outside the four dispatched shapes is returned verbatim
by the resolver, whatever `all_inputs` is — in particular `None`, numbers
and strings. -/
theorem constant_passthrough (ai : AllInputs) (c : PyObj)
    (h : isStructured c = false) :
    construct ai c = Except.ok c := by
  cases c with
  | e n k => simp [isStructured] at h
  | pyList cl xs =>
      simp [isStructured] at h
      subst h; simp [construct, constructConstant]
  | pyTuple cl xs =>
      simp [isStructured] at h
      subst h; simp [construct, constructConstant]
  | pyDict cl es =>
      simp [isStructured] at h
      subst h; simp [construct, constructConstant]
  | pyStr s => simp [construct, constructConstant]
  | pyInt m => simp [construct, constructConstant]
  | pyNone => simp [construct, constructConstant]

/-- Witness for C8: `None` passes through an empty `all_inputs`. -/
theorem constant_passthrough_witness :
    isStructured PyObj.pyNone = false ∧
    construct [] PyObj.pyNone = Except.ok PyObj.pyNone :=
  ⟨by simp [isStructured], constant_passthrough [] PyObj.pyNone (by simp [isStructured])⟩

/-- C10: dispatch goes by the exact runtime class.  A node whose class is
a proper subclass of `list`, `tuple` or `dict` (the `exactCls := false`
constructors; named-tuple classes other than `E` are proper subclasses of
`tuple`) is returned unchanged with no recursion into its elements, while
a node of class exactly `E` is always handled by `_construct_element`,
never element-wise as a 2-tuple. -/
theorem dispatch_by_exact_class (ai : AllInputs) (xs : List PyObj)
    (es : List (PyObj × PyObj)) (n k : String) :
    construct ai (PyObj.pyList false xs) = Except.ok (PyObj.pyList false xs) ∧
    construct ai (PyObj.pyTuple false xs) = Except.ok (PyObj.pyTuple false xs) ∧
    construct ai (PyObj.pyDict false es) = Except.ok (PyObj.pyDict false es) ∧
    construct ai (PyObj.e n k) = constructElement ai n k := by
  refine ⟨?_, ?_, ?_, ?_⟩ <;> simp [construct, constructConstant]

theorem constructList_ok (ai : AllInputs) :
    ∀ {rs vs : List PyObj},
      List.Forall₂ (fun r v => construct ai r = Except.ok v) rs vs →
      constructList ai rs = Except.ok vs := by
  intro rs vs h
  induction h with
  | nil => simp [constructList]
  | cons h1 _ ih => simp [constructList, h1, ih]

/-- C7: a list recipe resolves element-wise, preserving order and
length. -/
theorem list_recipe_resolves_elementwise (ai : AllInputs) (rs vs : List PyObj)
    (h : List.Forall₂ (fun r v => construct ai r = Except.ok v) rs vs) :
    construct ai (PyObj.pyList true rs) = Except.ok (PyObj.pyList true vs) ∧
    vs.length = rs.length := by
  refine ⟨?_, h.length_eq.symm⟩
  simp [construct, constructList_ok ai h]

/-- Witness for C7 (spec scenario 2). -/
theorem list_recipe_resolves_elementwise_witness :
    construct [("stepA", [("a", PyObj.pyInt 1), ("b", PyObj.pyInt 2)])]
        (PyObj.pyList true [PyObj.e "stepA" "a", PyObj.e "stepA" "b"])
      = Except.ok (PyObj.pyList true [PyObj.pyInt 1, PyObj.pyInt 2]) ∧
    ([PyObj.pyInt 1, PyObj.pyInt 2]).length
      = ([PyObj.e "stepA" "a", PyObj.e "stepA" "b"]).length :=
  list_recipe_resolves_elementwise _ _ _
    (by
      refine List.Forall₂.cons ?_ (List.Forall₂.cons ?_ List.Forall₂.nil) <;>
        simp [construct, constructElement, dictGet, assocFindStr, tryKeyError])

theorem constructDict_ok (ai : AllInputs) :
    ∀ {es rs : List (PyObj × PyObj)},
      List.Forall₂
        (fun p q => construct ai p.1 = Except.ok q.1 ∧
          construct ai p.2 = Except.ok q.2) es rs →
      ∀ acc, constructDict ai acc es
        = Except.ok (rs.foldl (fun d q => dictInsert d q.1 q.2) acc) := by
  intro es rs h
  induction h with
  | nil => intro acc; simp [constructDict]
  | cons h1 _ ih =>
      intro acc
      simp [constructDict, h1.1, h1.2, ih]

theorem pyEq_self (a : PyObj) : pyEq a a = true := (pyEq_iff a a).2 rfl

theorem pyEq_false_of_ne {a b : PyObj} (h : a ≠ b) : pyEq a b = false := by
  cases h2 : pyEq a b
  · rfl
  · exact absurd ((pyEq_iff a b).1 h2) h

theorem assocFindPy_map_replace_eq (k v : PyObj) :
    ∀ (d : List (PyObj × PyObj)), d.any (fun p => pyEq p.1 k) = true →
      assocFindPy (d.map (fun p => if pyEq p.1 k then (k, v) else p)) k
        = some v := by
  intro d
  induction d with
  | nil => intro h; simp at h
  | cons p rest ih =>
      intro h
      by_cases hp : pyEq p.1 k = true
      · simp [hp, assocFindPy, pyEq_self]
      · have h2 : rest.any (fun p => pyEq p.1 k) = true := by
          simpa [hp] using h
        simp [hp, assocFindPy, ih h2]

theorem assocFindPy_map_replace_ne (k v k2 : PyObj) (hne : k2 ≠ k) :
    ∀ (d : List (PyObj × PyObj)),
      assocFindPy (d.map (fun p => if pyEq p.1 k then (k, v) else p)) k2
        = assocFindPy d k2 := by
  intro d
  induction d with
  | nil => rfl
  | cons p rest ih =>
      by_cases hp : pyEq p.1 k = true
      · have hp2 : p.1 = k := (pyEq_iff _ _).1 hp
        have hk2 : pyEq p.1 k2 = false := by
          refine pyEq_false_of_ne ?_
          rw [hp2]
          exact fun h => hne h.symm
        have hk3 : pyEq k k2 = false := by
          refine pyEq_false_of_ne ?_
          exact fun h => hne h.symm
        simp [hp, assocFindPy, hk2, hk3, ih]
      · simp [hp, assocFindPy, ih]

theorem assocFindPy_append_single (k v k2 : PyObj) :
    ∀ (d : List (PyObj × PyObj)), d.any (fun p => pyEq p.1 k) = false →
      assocFindPy (d ++ [(k, v)]) k2
        = if k2 = k then some v else assocFindPy d k2 := by
  intro d
  induction d with
  | nil =>
      intro _
      by_cases hk : k2 = k
      · simp [hk, assocFindPy, pyEq_self]
      · have h3 : pyEq k k2 = false :=
          pyEq_false_of_ne (fun h => hk h.symm)
        simp [assocFindPy, h3, hk]
  | cons p rest ih =>
      intro h
      rw [List.any_cons, Bool.or_eq_false_iff] at h
      obtain ⟨hp, h2⟩ := h
      by_cases hpk : pyEq p.1 k2 = true
      · have hp2 : p.1 = k2 := (pyEq_iff _ _).1 hpk
        have hne : k2 ≠ k := by
          intro hk
          rw [hk] at hp2
          rw [hp2] at hp
          simp [pyEq_self] at hp
        simp [assocFindPy, hpk, hne]
      · simp [assocFindPy, hpk, ih h2]

theorem assocFindPy_dictInsert (d : List (PyObj × PyObj)) (k v k2 : PyObj) :
    assocFindPy (dictInsert d k v) k2
      = if k2 = k then some v else assocFindPy d k2 := by
  by_cases h : d.any (fun p => pyEq p.1 k) = true
  · by_cases hk : k2 = k
    · rw [hk]
      simp [dictInsert, h, assocFindPy_map_replace_eq k v d h]
    · simp [dictInsert, h, assocFindPy_map_replace_ne k v k2 hk d, hk]
  · have h2 : d.any (fun p => pyEq p.1 k) = false := by simpa using h
    simp [dictInsert, h2, assocFindPy_append_single k v k2 d h2]

theorem assocFindPy_foldl_insert :
    ∀ (rs : List (PyObj × PyObj)) (d : List (PyObj × PyObj)) (k : PyObj),
      assocFindPy (rs.foldl (fun d2 q => dictInsert d2 q.1 q.2) d) k
        = match lastAssoc rs k with
          | some v => some v
          | none => assocFindPy d k := by
  intro rs
  induction rs with
  | nil => intro d k; simp [lastAssoc]
  | cons q rest ih =>
      intro d k
      rw [List.foldl_cons, ih]
      cases h : lastAssoc rest k with
      | some v => simp [lastAssoc, h]
      | none =>
          by_cases hq : pyEq q.1 k = true
          · have hq2 : q.1 = k := (pyEq_iff _ _).1 hq
            simp [lastAssoc, h, hq, assocFindPy_dictInsert, hq2, pyEq_self]
          · have hq2 : ¬ k = q.1 := by
              intro h2
              rw [h2] at hq
              simp [pyEq_self] at hq
            simp [lastAssoc, h, hq, assocFindPy_dictInsert, hq2]

/-- C6: a dict recipe resolves the key and the value of every entry in
iteration order; the result is the dict built by inserting the resolved
pairs in that order, and whenever several entries resolve to the same
concrete key, the lookup of that key yields the last (later-iterated)
entry's value. -/
theorem dict_recipe_resolves_entries_last_wins (ai : AllInputs)
    (es rs : List (PyObj × PyObj))
    (h : List.Forall₂
      (fun p q => construct ai p.1 = Except.ok q.1 ∧
        construct ai p.2 = Except.ok q.2) es rs) :
    construct ai (PyObj.pyDict true es)
      = Except.ok (PyObj.pyDict true (dictOfPairs rs)) ∧
    ∀ k : PyObj, assocFindPy (dictOfPairs rs) k = lastAssoc rs k := by
  constructor
  · simp [construct, constructDict_ok ai h [], dictOfPairs]
  · intro k
    rw [dictOfPairs, assocFindPy_foldl_insert rs [] k]
    cases lastAssoc rs k <;> simp [assocFindPy]

/-- Witness for C6: two entries whose keys both resolve to the string
`"dup"`; the output binds `"dup"` to the second entry's value. -/
theorem dict_recipe_resolves_entries_last_wins_witness :
    construct [("s", [("k1", PyObj.pyStr "dup"), ("k2", PyObj.pyStr "dup")])]
        (PyObj.pyDict true
          [(PyObj.e "s" "k1", PyObj.pyInt 1), (PyObj.e "s" "k2", PyObj.pyInt 2)])
      = Except.ok (PyObj.pyDict true
          (dictOfPairs [(PyObj.pyStr "dup", PyObj.pyInt 1),
            (PyObj.pyStr "dup", PyObj.pyInt 2)])) ∧
    assocFindPy
        (dictOfPairs [(PyObj.pyStr "dup", PyObj.pyInt 1),
          (PyObj.pyStr "dup", PyObj.pyInt 2)]) (PyObj.pyStr "dup")
      = lastAssoc [(PyObj.pyStr "dup", PyObj.pyInt 1),
          (PyObj.pyStr "dup", PyObj.pyInt 2)] (PyObj.pyStr "dup") ∧
    dictOfPairs [(PyObj.pyStr "dup", PyObj.pyInt 1),
        (PyObj.pyStr "dup", PyObj.pyInt 2)]
      = [(PyObj.pyStr "dup", PyObj.pyInt 2)] := by
  have h := dict_recipe_resolves_entries_last_wins
    [("s", [("k1", PyObj.pyStr "dup"), ("k2", PyObj.pyStr "dup")])]
    [(PyObj.e "s" "k1", PyObj.pyInt 1), (PyObj.e "s" "k2", PyObj.pyInt 2)]
    [(PyObj.pyStr "dup", PyObj.pyInt 1), (PyObj.pyStr "dup", PyObj.pyInt 2)]
    (by
      refine List.Forall₂.cons ⟨?_, ?_⟩ (List.Forall₂.cons ⟨?_, ?_⟩ List.Forall₂.nil) <;>
        simp [construct, constructElement, constructConstant, dictGet,
          assocFindStr, tryKeyError])
  refine ⟨h.1, h.2 _, ?_⟩
  simp [dictOfPairs, dictInsert, pyEq]

theorem insertStr_of_not_mem (d : List (String × PyObj)) (k : String)
    (v : PyObj) (h : ∀ q ∈ d, q.1 ≠ k) :
    insertStr d k v = d ++ [(k, v)] := by
  have h2 : d.any (fun p => p.1 == k) = false := by
    rw [List.any_eq_false]
    intro q hq
    simpa using h q hq
  simp [insertStr, h2]

theorem adaptGo_ok (ai : AllInputs) :
    ∀ {recipes : List (String × PyObj)} {vals : List PyObj},
      List.Forall₂ (fun p v => construct ai p.2 = Except.ok v) recipes vals →
      (recipes.map Prod.fst).Nodup →
      ∀ acc, (∀ p ∈ recipes, ∀ q ∈ acc, q.1 ≠ p.1) →
        adaptGo ai acc recipes
          = Except.ok (acc ++ (recipes.map Prod.fst).zip vals) := by
  intro recipes vals h
  induction h with
  | nil => intro _ acc _; simp [adaptGo]
  | @cons p v rest restv h1 hrest ih =>
      intro hnd acc hdisj
      obtain ⟨name, recipe⟩ := p
      rw [List.map_cons, List.nodup_cons] at hnd
      have hins : insertStr acc name v = acc ++ [(name, v)] :=
        insertStr_of_not_mem acc name v
          (fun q hq => hdisj (name, recipe) (List.mem_cons_self _ _) q hq)
      have hdisj2 : ∀ p2 ∈ rest, ∀ q ∈ acc ++ [(name, v)], q.1 ≠ p2.1 := by
        intro p2 hp2 q hq
        rcases List.mem_append.1 hq with hq | hq
        · exact hdisj p2 (List.mem_cons_of_mem _ hp2) q hq
        · have hqe : q = (name, v) := by simpa using hq
          rw [hqe]
          intro hcontra
          apply hnd.1
          rw [hcontra]
          exact List.mem_map_of_mem Prod.fst hp2
      simp [adaptGo, h1, hins, ih hnd.2 (acc ++ [(name, v)]) hdisj2]

/-- C1: when every configured recipe resolves, `adapt` returns the mapping
that binds, in configuration order, each configured argument name to its
own recipe's resolved value, and nothing else: its key list is exactly the
configured name list. -/
theorem adapt_binds_each_configured_name (recipes : List (String × PyObj))
    (ai : AllInputs) (vals : List PyObj)
    (hnd : (recipes.map Prod.fst).Nodup)
    (h : List.Forall₂ (fun p v => construct ai p.2 = Except.ok v) recipes vals) :
    adapt recipes ai = Except.ok ((recipes.map Prod.fst).zip vals) ∧
    ((recipes.map Prod.fst).zip vals).map Prod.fst = recipes.map Prod.fst := by
  constructor
  · have h2 := adaptGo_ok ai h hnd [] (by intro p _ q hq; simp at hq)
    simpa [adapt] using h2
  · refine List.map_fst_zip _ _ ?_
    rw [List.length_map, h.length_eq]

/-- Witness for C1: a two-entry configuration mixing an extractor and a
constant. -/
theorem adapt_binds_each_configured_name_witness :
    adapt [("x", PyObj.e "stepA" "out1"), ("c", PyObj.pyInt 7)]
        [("stepA", [("out1", PyObj.pyInt 42)])]
      = Except.ok [("x", PyObj.pyInt 42), ("c", PyObj.pyInt 7)] ∧
    ([("x", PyObj.pyInt 42), ("c", PyObj.pyInt 7)]).map Prod.fst
      = (([("x", PyObj.e "stepA" "out1"), ("c", PyObj.pyInt 7)] :
          List (String × PyObj))).map Prod.fst :=
  adapt_binds_each_configured_name _ _ [PyObj.pyInt 42, PyObj.pyInt 7]
    (by simp)
    (by
      refine List.Forall₂.cons ?_ (List.Forall₂.cons ?_ List.Forall₂.nil) <;>
        simp [construct, constructElement, constructConstant, dictGet,
          assocFindStr, tryKeyError])

theorem adaptGo_error (ai : AllInputs) (name : String) (r : PyObj)
    (post : List (String × PyObj)) (err : PyErr)
    (hr : construct ai r = Except.error err) :
    ∀ (pre : List (String × PyObj)) (acc : List (String × PyObj)),
      (∀ p ∈ pre, ∃ v, construct ai p.2 = Except.ok v) →
      adaptGo ai acc (pre ++ (name, r) :: post) = Except.error err := by
  intro pre
  induction pre with
  | nil => intro acc _; simp [adaptGo, hr]
  | cons p rest ih =>
      intro acc hpre
      obtain ⟨v, hv⟩ := hpre p (List.mem_cons_self _ _)
      obtain ⟨pn, pr⟩ := p
      simp only [List.cons_append, adaptGo, hv]
      exact ih _ (fun q hq => hpre q (List.mem_cons_of_mem _ hq))

/-- C5: the first failing recipe in configuration order aborts the whole
`adapt` call with exactly that error — no partial mapping is produced, and
whatever comes later in the configuration (here an arbitrary `post`,
which may itself contain failing recipes) has no effect on the result. -/
theorem adapt_propagates_first_error (ai : AllInputs)
    (pre : List (String × PyObj)) (name : String) (r : PyObj)
    (post : List (String × PyObj)) (err : PyErr)
    (hpre : ∀ p ∈ pre, ∃ v, construct ai p.2 = Except.ok v)
    (hr : construct ai r = Except.error err) :
    adapt (pre ++ (name, r) :: post) ai = Except.error err :=
  adaptGo_error ai name r post err hr pre [] hpre

/-- Witness for C5: the second of three entries fails with the
unknown-input error; the third entry would fail with a different error but
is never reached. -/
theorem adapt_propagates_first_error_witness :
    adapt [("a", PyObj.pyInt 1), ("w", PyObj.e "missing" "k"),
        ("b", PyObj.e "other" "j")] []
      = Except.error (PyErr.adapterError (noSuchInputMsg "missing")) :=
  adapt_propagates_first_error [] [("a", PyObj.pyInt 1)] "w"
    (PyObj.e "missing" "k") [("b", PyObj.e "other" "j")]
    (PyErr.adapterError (noSuchInputMsg "missing"))
    (by
      intro p hp
      have hp2 : p = ("a", PyObj.pyInt 1) := by simpa using hp
      exact ⟨PyObj.pyInt 1, by rw [hp2]; simp [construct, constructConstant]⟩)
    (by simp [construct, constructElement, dictGet, assocFindStr, tryKeyError])

/-- Mutable objects visible across an `adapt` call: the adapter's stored
`adapting_recipes` attribute and the caller's `all_inputs` mapping
(together with every nested step-result mapping it contains, which is part
of the `AllInputs` value).  The state-passing embedding below threads this
store through every operation of `Adapter.adapt`, so that a mutation
anywhere in the source would show up as a changed store. -/
structure Store where
  adapting_recipes : List (String × PyObj)
  all_inputs : AllInputs
deriving Repr

mutual

/-- State-passing embedding of `_construct`: every operation of the source
either reads the store (dict subscripts on `all_inputs` and on step
results) or builds fresh local values, so each case returns the store it
was handed, updated only by its recursive sub-calls. -/
def constructS (s : Store) : PyObj → Store × Except PyErr PyObj
  | PyObj.e n k => (s, constructElement s.all_inputs n k)
  | PyObj.pyList true xs =>
      match constructListS s xs with
      | (s2, Except.ok ys) => (s2, Except.ok (PyObj.pyList true ys))
      | (s2, Except.error err) => (s2, Except.error err)
  | PyObj.pyTuple true xs =>
      match constructListS s xs with
      | (s2, Except.ok ys) => (s2, Except.ok (PyObj.pyTuple true ys))
      | (s2, Except.error err) => (s2, Except.error err)
  | PyObj.pyDict true es =>
      match constructDictS s [] es with
      | (s2, Except.ok d) => (s2, Except.ok (PyObj.pyDict true d))
      | (s2, Except.error err) => (s2, Except.error err)
  | other => (s, constructConstant other)

/-- State-passing embedding of the element traversal of
`_construct_list` / `_construct_tuple`. -/
def constructListS (s : Store) : List PyObj → Store × Except PyErr (List PyObj)
  | [] => (s, Except.ok [])
  | x :: xs =>
      match constructS s x with
      | (s2, Except.error err) => (s2, Except.error err)
      | (s2, Except.ok y) =>
          match constructListS s2 xs with
          | (s3, Except.error err) => (s3, Except.error err)
          | (s3, Except.ok ys) => (s3, Except.ok (y :: ys))

/-- State-passing embedding of `_construct_dict`; only the fresh local
accumulator is written. -/
def constructDictS (s : Store) (acc : List (PyObj × PyObj)) :
    List (PyObj × PyObj) → Store × Except PyErr (List (PyObj × PyObj))
  | [] => (s, Except.ok acc)
  | (k, v) :: es =>
      match constructS s k with
      | (s2, Except.error err) => (s2, Except.error err)
      | (s2, Except.ok k2) =>
          match constructS s2 v with
          | (s3, Except.error err) => (s3, Except.error err)
          | (s3, Except.ok v2) => constructDictS s3 (dictInsert acc k2 v2) es

end

/-- State-passing embedding of the loop of `adapt`: iterate over the
stored configuration, writing only the fresh local `adapted` dict. -/
def adaptGoS (s : Store) (adapted : List (String × PyObj)) :
    List (String × PyObj) → Store × Except PyErr (List (String × PyObj))
  | [] => (s, Except.ok adapted)
  | (name, recipe) :: rest =>
      match constructS s recipe with
      | (s2, Except.error err) => (s2, Except.error err)
      | (s2, Except.ok v) => adaptGoS s2 (insertStr adapted name v) rest

/-- State-passing embedding of `Adapter.adapt`: start from a freshly
allocated empty `adapted` dict and iterate over the stored
configuration. -/
def adaptS (s : Store) : Store × Except PyErr (List (String × PyObj)) :=
  adaptGoS s [] s.adapting_recipes

mutual

theorem constructS_pure : ∀ (s : Store) (r : PyObj),
    constructS s r = (s, construct s.all_inputs r)
  | s, PyObj.e n k => by simp [constructS, construct]
  | s, PyObj.pyList true xs => by
      have h := constructListS_pure s xs
      cases hc : constructList s.all_inputs xs with
      | ok ys => simp [constructS, construct, h, hc]
      | error err => simp [constructS, construct, h, hc]
  | s, PyObj.pyList false xs => by simp [constructS, construct]
  | s, PyObj.pyTuple true xs => by
      have h := constructListS_pure s xs
      cases hc : constructList s.all_inputs xs with
      | ok ys => simp [constructS, construct, h, hc]
      | error err => simp [constructS, construct, h, hc]
  | s, PyObj.pyTuple false xs => by simp [constructS, construct]
  | s, PyObj.pyDict true es => by
      have h := constructDictS_pure s [] es
      cases hc : constructDict s.all_inputs [] es with
      | ok d => simp [constructS, construct, h, hc]
      | error err => simp [constructS, construct, h, hc]
  | s, PyObj.pyDict false es => by simp [constructS, construct]
  | s, PyObj.pyStr str => by simp [constructS, construct]
  | s, PyObj.pyInt m => by simp [constructS, construct]
  | s, PyObj.pyNone => by simp [constructS, construct]

theorem constructListS_pure : ∀ (s : Store) (xs : List PyObj),
    constructListS s xs = (s, constructList s.all_inputs xs)
  | s, [] => by simp [constructListS, constructList]
  | s, x :: xs => by
      have h := constructS_pure s x
      cases hc : construct s.all_inputs x with
      | error err => simp [constructListS, constructList, h, hc]
      | ok y =>
          have h2 := constructListS_pure s xs
          cases hc2 : constructList s.all_inputs xs with
          | error err => simp [constructListS, constructList, h, hc, h2, hc2]
          | ok ys => simp [constructListS, constructList, h, hc, h2, hc2]

theorem constructDictS_pure : ∀ (s : Store) (acc : List (PyObj × PyObj))
    (es : List (PyObj × PyObj)),
    constructDictS s acc es = (s, constructDict s.all_inputs acc es)
  | s, acc, [] => by simp [constructDictS, constructDict]
  | s, acc, (k, v) :: es => by
      have h := constructS_pure s k
      cases hc : construct s.all_inputs k with
      | error err => simp [constructDictS, constructDict, h, hc]
      | ok k2 =>
          have h2 := constructS_pure s v
          cases hc2 : construct s.all_inputs v with
          | error err => simp [constructDictS, constructDict, h, hc, h2, hc2]
          | ok v2 =>
              have h3 := constructDictS_pure s (dictInsert acc k2 v2) es
              simp [constructDictS, constructDict, h, hc, h2, hc2, h3]

end

theorem adaptGoS_pure (s : Store) :
    ∀ (recipes : List (String × PyObj)) (adapted : List (String × PyObj)),
      adaptGoS s adapted recipes = (s, adaptGo s.all_inputs adapted recipes) := by
  intro recipes
  induction recipes with
  | nil => intro adapted; simp [adaptGoS, adaptGo]
  | cons p rest ih =>
      intro adapted
      obtain ⟨name, recipe⟩ := p
      have h := constructS_pure s recipe
      cases hc : construct s.all_inputs recipe with
      | error err => simp [adaptGoS, adaptGo, h, hc]
      | ok v => simp [adaptGoS, adaptGo, h, hc, ih]

/-- C9: `adapt` leaves the shared store — the adapter's stored
`adapting_recipes` configuration and the caller's `all_inputs` mapping
with all its nested step-result mappings — exactly as it found it, and its
result is the pure function of the two; the output mapping itself is
newly built per call, starting from the empty `adapted` dict allocated at
the top of `adapt`. -/
theorem adapt_preserves_store (s : Store) :
    (adaptS s).1 = s ∧
    (adaptS s).2 = adapt s.adapting_recipes s.all_inputs := by
  have h := adaptGoS_pure s s.adapting_recipes []
  constructor
  · simp [adaptS, h]
  · simp [adaptS, adapt, h]

end Steppy
